import Mathlib

/-!
Shallow embedding of `kismet_interactive_diff.py`: the inventory builder
(`_process_device`, `parse_kismet_log`) and the diff engine
(`report_new_and_missing`, `_get_ap_changes`, `_report_ap_changes`,
`_get_client_probe_changes`, `_report_client_changes`,
`report_probed_ssid_analysis`), together with theorems settling the
specification claims.

Python dictionaries are modelled as `Finmap` over `String` keys (assignment is
`Finmap.insert`, which is last-write-wins), Python sets as `Finset String`.
Raw JSON values that the script stores without conversion (`ssid`, `channel`,
`crypt_set`) are modelled by `JVal` (string or integer), so that the
normalization-free comparisons of the script are captured faithfully; the
Python `str` conversion is `JVal.asString`.
-/

/-- A raw JSON scalar as it appears in a device record: the script never
normalizes these, so `"6"` and `6` are distinct values. -/
inductive JVal where
  | str : String → JVal
  | num : Int → JVal
deriving DecidableEq, Repr

/-- Python `str(...)` applied to a raw value (used for `crypt_set`). -/
def JVal.asString : JVal → String
  | .str s => s
  | .num n => toString n

/-- One parsed log line, holding the keys `_process_device` reads.
`none` models an absent key; `dot11_client_probed_ssid_map` is the list of
keys of that mapping. -/
structure DeviceRecord where
  kismet_device_base_macaddr : Option String
  kismet_device_base_type : Option String
  kismet_device_base_name : Option JVal
  kismet_common_channel : Option JVal
  dot11_network_crypt_set : Option JVal
  dot11_client_probed_ssid_map : List String
deriving DecidableEq, Repr

/-- The attributes stored for an access point: the ssid, the channel, and the
crypt string obtained from the crypt set. -/
structure APInfo where
  ssid : JVal
  channel : JVal
  crypt : String
deriving DecidableEq, Repr

/-- Python substring test `pat in s`: `pat.toList` occurs contiguously in
`s.toList`, checked position by position. -/
def charsStartWith : List Char → List Char → Bool
  | [], _ => true
  | _ :: _, [] => false
  | p :: ps, c :: cs => p == c && charsStartWith ps cs

/-- Auxiliary scan for `strContains`. -/
def charsContain (pat : List Char) : List Char → Bool
  | [] => pat.isEmpty
  | c :: cs => charsStartWith pat (c :: cs) || charsContain pat cs

/-- Python membership test `pat in s` (contiguous substring test). -/
def strContains (s pat : String) : Bool :=
  charsContain pat.toList s.toList

/-- The three dictionaries built by `parse_kismet_log`: `aps`, `clients`
and the `defaultdict(set)` `probed_ssid_map`. -/
structure Inventory where
  aps : Finmap fun _ : String => APInfo
  clients : Finmap fun _ : String => Finset String
  probed_ssid_map : Finmap fun _ : String => Finset String

/-- The empty state that `parse_kismet_log` starts from. -/
def emptyInventory : Inventory := ⟨∅, ∅, ∅⟩

/-- Reading `probed_ssid_map[probe]` as a `defaultdict(set)`: a missing key
yields the empty set. -/
def lookupSet (m : Finmap fun _ : String => Finset String) (k : String) :
    Finset String :=
  (m.lookup k).getD ∅

/-- `probed_ssid_map[probe].add(mac)` on a `defaultdict(set)`. -/
def addToIndex (m : Finmap fun _ : String => Finset String) (probe mac : String) :
    Finmap fun _ : String => Finset String :=
  m.insert probe (insert mac (lookupSet m probe))

/-- The body of `_process_device(device, aps, clients, probed_ssid_map)`: the
falsiness guard on `mac` / `dev_type`, the AP branch with its `.get` defaults,
and the Wi-Fi client branch recording the probe set and updating the index
for every non-empty probe. -/
def _process_device (device : DeviceRecord) (inv : Inventory) : Inventory :=
  match device.kismet_device_base_macaddr, device.kismet_device_base_type with
  | some mac, some dev_type =>
    if mac = "" ∨ dev_type = "" then inv
    else if dev_type = "Wi-Fi AP" then
      let ap : APInfo :=
        { ssid := device.kismet_device_base_name.getD (JVal.str "N/A")
          channel := device.kismet_common_channel.getD (JVal.str "N/A")
          crypt := (device.dot11_network_crypt_set.getD (JVal.str "Unknown")).asString }
      { inv with aps := inv.aps.insert mac ap }
    else if strContains dev_type "Wi-Fi" = true ∧ dev_type ≠ "Wi-Fi AP" then
      { inv with
          clients := inv.clients.insert mac
            device.dot11_client_probed_ssid_map.toFinset
          probed_ssid_map := device.dot11_client_probed_ssid_map.foldl
            (fun m probe => if probe = "" then m else addToIndex m probe mac)
            inv.probed_ssid_map }
    else inv
  | _, _ => inv

/-- The builder `parse_kismet_log`: one pass over the decoded records, feeding each to
`_process_device`.  (Lines that fail to decode never reach this stage.) -/
def parse_kismet_log (records : List DeviceRecord) : Inventory :=
  records.foldl (fun inv device => _process_device device inv) emptyInventory

/-- Python `sorted(...)` over a set of strings (lexicographic order). -/
def sortKeys (s : Finset String) : List String :=
  s.sort (· ≤ ·)

/-- The membership section of the delta: each AP key paired with the `ssid`
printed next to it. -/
structure MembershipReport where
  new_aps : List (String × JVal)
  missing_aps : List (String × JVal)
  new_clients : List String
  missing_clients : List String
deriving DecidableEq, Repr

/-- Fallback used only to make the ssid lookup total; the report never
reads it for a key outside the map. -/
def apDefault : APInfo :=
  ⟨JVal.str "N/A", JVal.str "N/A", "Unknown"⟩

/-- The ssid displayed for a reported AP key, read from its map. -/
def apSsid (m : Finmap fun _ : String => APInfo) (mac : String) : JVal :=
  ((m.lookup mac).getD apDefault).ssid

/-- The membership diff `report_new_and_missing`: the four sorted key-set differences, APs
annotated with the `ssid` from the snapshot in which they exist. -/
def report_new_and_missing (baseline comp : Inventory) : MembershipReport :=
  { new_aps := (sortKeys (comp.aps.keys \ baseline.aps.keys)).map fun mac =>
      (mac, apSsid comp.aps mac)
    missing_aps := (sortKeys (baseline.aps.keys \ comp.aps.keys)).map fun mac =>
      (mac, apSsid baseline.aps mac)
    new_clients := sortKeys (comp.clients.keys \ baseline.clients.keys)
    missing_clients := sortKeys (baseline.clients.keys \ comp.clients.keys) }

/-- Which of the three AP attributes a change record concerns. -/
inductive APField where
  | ssid
  | channel
  | crypt
deriving DecidableEq, Repr

/-- One emitted change record `{field, oldValue, newValue}`; the `crypt`
values are the stored strings, re-wrapped as values. -/
structure FieldChange where
  field : APField
  oldValue : JVal
  newValue : JVal
deriving DecidableEq, Repr

/-- The field comparison `_get_ap_changes`: one record per attribute whose two stored values
differ, in source order: ssid, channel, crypt. -/
def _get_ap_changes (base_ap comp_ap : APInfo) : List FieldChange :=
  (if base_ap.ssid ≠ comp_ap.ssid then
    [⟨APField.ssid, base_ap.ssid, comp_ap.ssid⟩] else []) ++
  (if base_ap.channel ≠ comp_ap.channel then
    [⟨APField.channel, base_ap.channel, comp_ap.channel⟩] else []) ++
  (if base_ap.crypt ≠ comp_ap.crypt then
    [⟨APField.crypt, JVal.str base_ap.crypt, JVal.str comp_ap.crypt⟩] else [])

/-- The AP change section `_report_ap_changes`: over the sorted common keys, keep exactly the MACs
with at least one change, each with its change list.  Every key ranged over
lies in both maps, so `baseline_aps[mac]` / `comp_aps[mac]` always succeed in
the source; the `getD apDefault` fallback is dead code kept only to make the
lookups total. -/
def _report_ap_changes (baseline_aps comp_aps : Finmap fun _ : String => APInfo) :
    List (String × List FieldChange) :=
  (sortKeys (baseline_aps.keys ∩ comp_aps.keys)).filterMap fun mac =>
    let base_ap := (baseline_aps.lookup mac).getD apDefault
    let comp_ap := (comp_aps.lookup mac).getD apDefault
    let changes := _get_ap_changes base_ap comp_ap
    if changes = [] then none else some (mac, changes)

/-- The probe comparison `_get_client_probe_changes`, returning the pair of
added and removed probes as set differences of the two probe sets. -/
def _get_client_probe_changes (base_client comp_client : Finset String) :
    Finset String × Finset String :=
  (comp_client \ base_client, base_client \ comp_client)

/-- The client change section `_report_client_changes`: over the sorted
common client keys, keep
exactly the MACs for which at least one of the two difference sets is
non-empty. -/
def _report_client_changes
    (baseline_clients comp_clients : Finmap fun _ : String => Finset String) :
    List (String × Finset String × Finset String) :=
  (sortKeys (baseline_clients.keys ∩ comp_clients.keys)).filterMap fun mac =>
    let base_client := (baseline_clients.lookup mac).getD ∅
    let comp_client := (comp_clients.lookup mac).getD ∅
    let diffs := _get_client_probe_changes base_client comp_client
    if diffs.1 = ∅ ∧ diffs.2 = ∅ then none else some (mac, diffs)

/-- The probed-SSID section: newly probed names with their sorted probing
clients, and names no longer probed. -/
structure ProbeReport where
  newly_probed : List (String × List String)
  no_longer_probed : List String
deriving DecidableEq, Repr

/-- The probed-SSID section `report_probed_ssid_analysis`: key-set differences of the two probe
indexes, each newly probed name attributed to the sorted set of comparison
clients recorded for it. -/
def report_probed_ssid_analysis
    (baseline_probes comp_probes : Finmap fun _ : String => Finset String) :
    ProbeReport :=
  { newly_probed := (sortKeys (comp_probes.keys \ baseline_probes.keys)).map fun ssid =>
      (ssid, sortKeys (lookupSet comp_probes ssid))
    no_longer_probed := sortKeys (baseline_probes.keys \ comp_probes.keys) }

/-- The APInfo stored by the AP branch of the source, with its `.get` defaults. -/
def apFieldsOf (d : DeviceRecord) : APInfo :=
  { ssid := d.kismet_device_base_name.getD (JVal.str "N/A")
    channel := d.kismet_common_channel.getD (JVal.str "N/A")
    crypt := (d.dot11_network_crypt_set.getD (JVal.str "Unknown")).asString }

/-- Whether a type string passes the client branch: non-empty, contains
"Wi-Fi", and is not the AP tag. -/
def isClientType (t : String) : Bool :=
  t != "" && strContains t "Wi-Fi" && t != "Wi-Fi AP"

/-- Whether a record takes the AP branch for MAC `M`: passes the falsiness
guard with that MAC and carries the AP type tag. -/
def isAPRec (d : DeviceRecord) (M : String) : Bool :=
  d.kismet_device_base_macaddr == some M && M != "" &&
    (d.kismet_device_base_type == some "Wi-Fi AP")

/-- Whether a record takes the client branch for MAC `M`. -/
def isClientRec (d : DeviceRecord) (M : String) : Bool :=
  d.kismet_device_base_macaddr == some M && M != "" &&
    isClientType (d.kismet_device_base_type.getD "")

/-- The builder fold over a record list starting from an arbitrary state;
`parse_kismet_log records` is `processList records emptyInventory`. -/
def processList (records : List DeviceRecord) (inv : Inventory) : Inventory :=
  records.foldl (fun i d => _process_device d i) inv

/-- The AP attributes of the last AP-branch record for `M`, scanning later
records first: this is what last-write-wins leaves in `aps`. -/
def lastAPInfo : List DeviceRecord → String → Option APInfo
  | [], _ => none
  | d :: rs, M =>
    match lastAPInfo rs M with
    | some a => some a
    | none => if isAPRec d M then some (apFieldsOf d) else none

/-- The probe set of the last client-branch record for `M`: this is what
last-write-wins leaves in `clients`. -/
def lastClientProbes : List DeviceRecord → String → Option (Finset String)
  | [], _ => none
  | d :: rs, M =>
    match lastClientProbes rs M with
    | some P => some P
    | none =>
      if isClientRec d M then some d.dot11_client_probed_ssid_map.toFinset else none

/-- The MACs of all client-branch records, in input order, with one entry per
record (duplicates kept). -/
def clientMacs (records : List DeviceRecord) : List String :=
  records.filterMap fun d =>
    match d.kismet_device_base_macaddr with
    | some mac => if isClientRec d mac then some mac else none
    | none => none

theorem step_aps_lookup (d : DeviceRecord) (inv : Inventory) (M : String) :
    (_process_device d inv).aps.lookup M =
      if isAPRec d M then some (apFieldsOf d) else inv.aps.lookup M := by
  rcases d with ⟨mo, ty, nm, ch, cr, ps⟩
  cases mo with
  | none => simp [_process_device, isAPRec]
  | some mac =>
    cases ty with
    | none => simp [_process_device, isAPRec]
    | some t =>
      simp only [_process_device, isAPRec, apFieldsOf]
      split_ifs with h1 h2 h3 <;>
        simp_all [isClientType] <;>
        try (by_cases hMm : M = mac) <;>
        simp_all [Finmap.lookup_insert, Finmap.lookup_insert_of_ne]


theorem isClientType_empty : isClientType "" = false := by decide

theorem step_clients_lookup (d : DeviceRecord) (inv : Inventory) (M : String) :
    (_process_device d inv).clients.lookup M =
      if isClientRec d M then some d.dot11_client_probed_ssid_map.toFinset
      else inv.clients.lookup M := by
  rcases d with ⟨mo, ty, nm, ch, cr, ps⟩
  cases mo with
  | none => simp [_process_device, isClientRec]
  | some mac =>
    cases ty with
    | none => simp [_process_device, isClientRec, isClientType_empty]
    | some t =>
      simp only [_process_device, isClientRec, Option.getD_some]
      split_ifs with h1 h2 h3 <;>
        simp_all [isClientType] <;>
        try (by_cases hMm : M = mac) <;>
        simp_all [Finmap.lookup_insert, Finmap.lookup_insert_of_ne]

theorem addToIndex_mem (m : Finmap fun _ : String => Finset String)
    (p mac n M : String) :
    M ∈ lookupSet (addToIndex m p mac) n ↔
      (n = p ∧ M = mac) ∨ M ∈ lookupSet m n := by
  unfold addToIndex lookupSet
  by_cases hnp : n = p
  · subst hnp
    simp [Finmap.lookup_insert]
  · rw [Finmap.lookup_insert_of_ne _ hnp]
    simp [hnp]

theorem foldProbes_mem (ps : List String)
    (m : Finmap fun _ : String => Finset String) (mac n M : String) :
    M ∈ lookupSet
        (ps.foldl (fun m probe => if probe = "" then m else addToIndex m probe mac) m) n ↔
      (M = mac ∧ n ≠ "" ∧ n ∈ ps) ∨ M ∈ lookupSet m n := by
  induction ps generalizing m with
  | nil => simp
  | cons p ps ih =>
    simp only [List.foldl_cons]
    by_cases hp : p = ""
    · subst hp
      rw [if_pos rfl, ih]
      constructor
      · rintro (⟨hM, hn, hmem⟩ | h)
        · exact Or.inl ⟨hM, hn, List.mem_cons_of_mem _ hmem⟩
        · exact Or.inr h
      · rintro (⟨hM, hn, hmem⟩ | h)
        · rcases List.mem_cons.mp hmem with h0 | h0
          · exact absurd h0 hn
          · exact Or.inl ⟨hM, hn, h0⟩
        · exact Or.inr h
    · rw [if_neg hp, ih, addToIndex_mem]
      constructor
      · rintro (⟨hM, hn, hmem⟩ | ⟨hn, hM⟩ | h)
        · exact Or.inl ⟨hM, hn, List.mem_cons_of_mem _ hmem⟩
        · exact Or.inl ⟨hM, hn ▸ hp, hn ▸ List.mem_cons_self _ _⟩
        · exact Or.inr h
      · rintro (⟨hM, hn, hmem⟩ | h)
        · rcases List.mem_cons.mp hmem with h0 | h0
          · exact Or.inr (Or.inl ⟨h0, hM⟩)
          · exact Or.inl ⟨hM, hn, h0⟩
        · exact Or.inr (Or.inr h)


theorem isClientType_iff (t : String) :
    isClientType t = true ↔
      t ≠ "" ∧ strContains t "Wi-Fi" = true ∧ t ≠ "Wi-Fi AP" := by
  unfold isClientType
  simp [Bool.and_eq_true, bne_iff_ne, and_assoc]

theorem isClientRec_iff (d : DeviceRecord) (M : String) :
    isClientRec d M = true ↔
      d.kismet_device_base_macaddr = some M ∧ M ≠ "" ∧
        isClientType (d.kismet_device_base_type.getD "") = true := by
  unfold isClientRec
  simp [Bool.and_eq_true, bne_iff_ne, and_assoc]

theorem isAPRec_iff (d : DeviceRecord) (M : String) :
    isAPRec d M = true ↔
      d.kismet_device_base_macaddr = some M ∧ M ≠ "" ∧
        d.kismet_device_base_type = some "Wi-Fi AP" := by
  unfold isAPRec
  simp [Bool.and_eq_true, bne_iff_ne, and_assoc]


theorem step_index_mem (d : DeviceRecord) (inv : Inventory) (n M : String) :
    M ∈ lookupSet (_process_device d inv).probed_ssid_map n ↔
      (isClientRec d M = true ∧ n ≠ "" ∧ n ∈ d.dot11_client_probed_ssid_map) ∨
      M ∈ lookupSet inv.probed_ssid_map n := by
  rcases d with ⟨mo, ty, nm, ch, cr, ps⟩
  cases mo with
  | none => simp [_process_device, isClientRec]
  | some mac =>
    cases ty with
    | none => simp [_process_device, isClientRec, isClientType_empty]
    | some t =>
      have hcr : isClientRec ⟨some mac, some t, nm, ch, cr, ps⟩ M = true ↔
          (mac = M ∧ M ≠ "" ∧ isClientType t = true) := by
        rw [isClientRec_iff]
        simp
      simp only [_process_device]
      split_ifs with h1 h2 h3
      · constructor
        · exact Or.inr
        · rintro (⟨hc, hn, hmem⟩ | h0)
          · rcases hcr.mp hc with ⟨hmac, hM, hty⟩
            rcases h1 with h1 | h1
            · exact absurd (hmac ▸ h1) hM
            · rw [h1] at hty
              exact absurd hty (by decide)
          · exact h0
      · constructor
        · exact Or.inr
        · rintro (⟨hc, hn, hmem⟩ | h0)
          · rcases hcr.mp hc with ⟨-, -, hty⟩
            rcases (isClientType_iff t).mp hty with ⟨-, -, hne⟩
            exact absurd h2 hne
          · exact h0
      · rw [not_or] at h1
        constructor
        · intro h
          rcases (foldProbes_mem ps inv.probed_ssid_map mac n M).mp h with
            ⟨hM, hn, hmem⟩ | h0
          · subst hM
            exact Or.inl ⟨hcr.mpr ⟨rfl, h1.1,
              (isClientType_iff t).mpr ⟨h1.2, h3.1, h3.2⟩⟩, hn, hmem⟩
          · exact Or.inr h0
        · rintro (⟨hc, hn, hmem⟩ | h0)
          · rcases hcr.mp hc with ⟨hmac, -, -⟩
            exact (foldProbes_mem ps inv.probed_ssid_map mac n M).mpr
              (Or.inl ⟨hmac.symm, hn, hmem⟩)
          · exact (foldProbes_mem ps inv.probed_ssid_map mac n M).mpr (Or.inr h0)
      · constructor
        · exact Or.inr
        · rintro (⟨hc, hn, hmem⟩ | h0)
          · rcases hcr.mp hc with ⟨-, -, hty⟩
            rcases (isClientType_iff t).mp hty with ⟨-, hcon, hne⟩
            exact absurd (⟨hcon, hne⟩ : _ ∧ _) h3
          · exact h0

theorem parse_kismet_log_eq (records : List DeviceRecord) :
    parse_kismet_log records = processList records emptyInventory := rfl

theorem processList_aps_lookup (records : List DeviceRecord) (inv : Inventory)
    (M : String) :
    (processList records inv).aps.lookup M =
      match lastAPInfo records M with
      | some a => some a
      | none => inv.aps.lookup M := by
  induction records generalizing inv with
  | nil => rfl
  | cons d rs ih =>
    show (processList rs (_process_device d inv)).aps.lookup M = _
    rw [ih]
    simp only [lastAPInfo]
    cases lastAPInfo rs M with
    | some a => rfl
    | none =>
      rw [step_aps_lookup]
      by_cases h : isAPRec d M = true <;> simp [h]

theorem processList_clients_lookup (records : List DeviceRecord) (inv : Inventory)
    (M : String) :
    (processList records inv).clients.lookup M =
      match lastClientProbes records M with
      | some P => some P
      | none => inv.clients.lookup M := by
  induction records generalizing inv with
  | nil => rfl
  | cons d rs ih =>
    show (processList rs (_process_device d inv)).clients.lookup M = _
    rw [ih]
    simp only [lastClientProbes]
    cases lastClientProbes rs M with
    | some P => rfl
    | none =>
      rw [step_clients_lookup]
      by_cases h : isClientRec d M = true <;> simp [h]

theorem processList_index_mem (records : List DeviceRecord) (inv : Inventory)
    (n M : String) :
    M ∈ lookupSet (processList records inv).probed_ssid_map n ↔
      (∃ d ∈ records, isClientRec d M = true ∧ n ≠ "" ∧
        n ∈ d.dot11_client_probed_ssid_map) ∨
      M ∈ lookupSet inv.probed_ssid_map n := by
  induction records generalizing inv with
  | nil => simp [processList]
  | cons d rs ih =>
    show M ∈ lookupSet (processList rs (_process_device d inv)).probed_ssid_map n ↔ _
    rw [ih, step_index_mem, List.exists_mem_cons_iff]
    constructor
    · rintro (hE | hPd | hold)
      · exact Or.inl (Or.inr hE)
      · exact Or.inl (Or.inl hPd)
      · exact Or.inr hold
    · rintro ((hPd | hE) | hold)
      · exact Or.inr (Or.inl hPd)
      · exact Or.inl hE
      · exact Or.inr (Or.inr hold)

theorem lookupSet_empty (n : String) :
    lookupSet (∅ : Finmap fun _ : String => Finset String) n = ∅ := by
  simp [lookupSet, Finmap.lookup_empty]

theorem lastClientProbes_eq_some (records : List DeviceRecord) (M : String)
    (P : Finset String) (h : lastClientProbes records M = some P) :
    ∃ d ∈ records, isClientRec d M = true ∧
      d.dot11_client_probed_ssid_map.toFinset = P := by
  induction records with
  | nil => exact absurd h (by simp [lastClientProbes])
  | cons d rs ih =>
    rw [lastClientProbes] at h
    cases hrs : lastClientProbes rs M with
    | some Q =>
      rw [hrs] at h
      cases h
      rcases ih hrs with ⟨e, he, hc, hP⟩
      exact ⟨e, List.mem_cons_of_mem _ he, hc, hP⟩
    | none =>
      rw [hrs] at h
      by_cases hc : isClientRec d M = true
      · rw [if_pos hc] at h
        cases h
        exact ⟨d, List.mem_cons_self _ _, hc, rfl⟩
      · rw [if_neg hc] at h
        cases h

theorem lastClientProbes_eq_none (records : List DeviceRecord) (M : String)
    (h : ∀ d ∈ records, ¬ isClientRec d M = true) :
    lastClientProbes records M = none := by
  induction records with
  | nil => rfl
  | cons d rs ih =>
    rw [lastClientProbes, ih (fun e he => h e (List.mem_cons_of_mem _ he)),
      if_neg (h d (List.mem_cons_self _ _))]

theorem lastAPInfo_eq_none (records : List DeviceRecord) (M : String)
    (h : ∀ d ∈ records, ¬ isAPRec d M = true) :
    lastAPInfo records M = none := by
  induction records with
  | nil => rfl
  | cons d rs ih =>
    rw [lastAPInfo, ih (fun e he => h e (List.mem_cons_of_mem _ he)),
      if_neg (h d (List.mem_cons_self _ _))]

theorem lastAPInfo_append (xs ys : List DeviceRecord) (M : String) :
    lastAPInfo (xs ++ ys) M =
      match lastAPInfo ys M with
      | some a => some a
      | none => lastAPInfo xs M := by
  induction xs with
  | nil =>
    simp only [List.nil_append, lastAPInfo]
    cases lastAPInfo ys M <;> rfl
  | cons d xs ih =>
    simp only [List.cons_append, lastAPInfo, List.append_eq, ih]
    cases lastAPInfo ys M <;> cases lastAPInfo xs M <;> rfl

theorem mem_clientMacs (records : List DeviceRecord) (M : String) :
    M ∈ clientMacs records ↔ ∃ d ∈ records, isClientRec d M = true := by
  unfold clientMacs
  rw [List.mem_filterMap]
  constructor
  · rintro ⟨d, hd, hf⟩
    refine ⟨d, hd, ?_⟩
    split at hf
    · split at hf
      · cases hf
        assumption
      · cases hf
    · cases hf
  · rintro ⟨d, hd, hc⟩
    refine ⟨d, hd, ?_⟩
    have hmo : d.kismet_device_base_macaddr = some M :=
      ((isClientRec_iff d M).mp hc).1
    rw [hmo]
    simp [hc]

theorem lastClientProbes_of_nodup (records : List DeviceRecord) (M : String)
    (d : DeviceRecord) (hnodup : (clientMacs records).Nodup) (hd : d ∈ records)
    (hc : isClientRec d M = true) :
    lastClientProbes records M = some d.dot11_client_probed_ssid_map.toFinset := by
  induction records with
  | nil => cases hd
  | cons e rs ih =>
    rcases List.mem_cons.mp hd with heq | hd'
    · subst heq
      have hmo : d.kismet_device_base_macaddr = some M :=
        ((isClientRec_iff d M).mp hc).1
      have hcons : clientMacs (d :: rs) = M :: clientMacs rs := by
        unfold clientMacs
        rw [List.filterMap_cons, hmo]
        simp [hc]
      rw [hcons] at hnodup
      have hnone : lastClientProbes rs M = none := by
        apply lastClientProbes_eq_none
        intro f hf hcf
        exact (List.nodup_cons.mp hnodup).1
          ((mem_clientMacs rs M).mpr ⟨f, hf, hcf⟩)
      rw [lastClientProbes, hnone, if_pos hc]
    · have htail : (clientMacs rs).Nodup := by
        unfold clientMacs at hnodup ⊢
        rw [List.filterMap_cons] at hnodup
        cases hfe : (match e.kismet_device_base_macaddr with
            | some mac => if isClientRec e mac then some mac else none
            | none => none) with
        | none =>
          rw [hfe] at hnodup
          exact hnodup
        | some b =>
          rw [hfe] at hnodup
          exact (List.nodup_cons.mp hnodup).2
      rw [lastClientProbes, ih htail hd']

/-- C1 (counterexample): with two client records for the same MAC, the probe
index keeps the name from the first record while `clients` only keeps the probe set of
the second record, so the index is not the inverse multimap of the client probed names. -/
theorem C1_counterexample :
    "BB:BB" ∈ lookupSet (parse_kismet_log
        [⟨some "BB:BB", some "Wi-Fi Client", none, none, none, ["HomeNet"]⟩,
         ⟨some "BB:BB", some "Wi-Fi Client", none, none, none, ["CoffeeShop"]⟩]).probed_ssid_map
      "HomeNet" ∧
    (parse_kismet_log
        [⟨some "BB:BB", some "Wi-Fi Client", none, none, none, ["HomeNet"]⟩,
         ⟨some "BB:BB", some "Wi-Fi Client", none, none, none, ["CoffeeShop"]⟩]).clients.lookup
      "BB:BB" = some {"CoffeeShop"} ∧
    "HomeNet" ∉ ({"CoffeeShop"} : Finset String) := by decide

/-- C1 (amended): when each client MAC occurs in at most one client-classified
record, `probed_ssid_map` is exactly the inverse multimap of the client probe
sets, excluding the empty name. -/
theorem C1_index_inversion (records : List DeviceRecord)
    (hnodup : (clientMacs records).Nodup) :
    (∀ M P n, (parse_kismet_log records).clients.lookup M = some P → n ∈ P →
      n ≠ "" → M ∈ lookupSet (parse_kismet_log records).probed_ssid_map n) ∧
    (∀ n M, M ∈ lookupSet (parse_kismet_log records).probed_ssid_map n →
      n ≠ "" ∧ ∃ P, (parse_kismet_log records).clients.lookup M = some P ∧ n ∈ P) := by
  constructor
  · intro M P n hlook hn hne
    rw [parse_kismet_log_eq, processList_clients_lookup] at hlook
    rcases hlast : lastClientProbes records M with _ | Q
    · rw [hlast] at hlook
      simp [emptyInventory, Finmap.lookup_empty] at hlook
    · rw [hlast] at hlook
      have hQP : Q = P := by simpa using hlook
      subst hQP
      rcases lastClientProbes_eq_some records M Q hlast with ⟨d, hd, hc, hP⟩
      rw [parse_kismet_log_eq, processList_index_mem]
      refine Or.inl ⟨d, hd, hc, hne, ?_⟩
      rw [← List.mem_toFinset, hP]
      exact hn
  · intro n M hmem
    rw [parse_kismet_log_eq, processList_index_mem] at hmem
    rcases hmem with ⟨d, hd, hc, hne, hn⟩ | hmem
    · refine ⟨hne, d.dot11_client_probed_ssid_map.toFinset, ?_, List.mem_toFinset.mpr hn⟩
      rw [parse_kismet_log_eq, processList_clients_lookup,
        lastClientProbes_of_nodup records M d hnodup hd hc]
    · rw [show emptyInventory.probed_ssid_map = (∅ : Finmap fun _ : String => Finset String) from rfl,
        lookupSet_empty] at hmem
      exact absurd hmem (Finset.not_mem_empty M)

/-- Witness for C1: a concrete two-client log with distinct MACs satisfies the
no-duplicate hypothesis, and the inversion holds for it. -/
theorem C1_index_inversion_witness :
    (clientMacs
      [⟨some "BB:BB", some "Wi-Fi Client", none, none, none, ["HomeNet", ""]⟩,
       ⟨some "CC:CC", some "Wi-Fi Client", none, none, none, ["HomeNet"]⟩]).Nodup ∧
    ((∀ M P n, (parse_kismet_log
        [⟨some "BB:BB", some "Wi-Fi Client", none, none, none, ["HomeNet", ""]⟩,
         ⟨some "CC:CC", some "Wi-Fi Client", none, none, none, ["HomeNet"]⟩]).clients.lookup M = some P → n ∈ P →
      n ≠ "" → M ∈ lookupSet (parse_kismet_log
        [⟨some "BB:BB", some "Wi-Fi Client", none, none, none, ["HomeNet", ""]⟩,
         ⟨some "CC:CC", some "Wi-Fi Client", none, none, none, ["HomeNet"]⟩]).probed_ssid_map n) ∧
    (∀ n M, M ∈ lookupSet (parse_kismet_log
        [⟨some "BB:BB", some "Wi-Fi Client", none, none, none, ["HomeNet", ""]⟩,
         ⟨some "CC:CC", some "Wi-Fi Client", none, none, none, ["HomeNet"]⟩]).probed_ssid_map n →
      n ≠ "" ∧ ∃ P, (parse_kismet_log
        [⟨some "BB:BB", some "Wi-Fi Client", none, none, none, ["HomeNet", ""]⟩,
         ⟨some "CC:CC", some "Wi-Fi Client", none, none, none, ["HomeNet"]⟩]).clients.lookup M = some P ∧ n ∈ P)) :=
  ⟨by decide, C1_index_inversion _ (by decide)⟩

/-- C4: upserting APs is last-write-wins — after building, the entry for a MAC
is exactly the fields of the last AP record with that MAC in input order. -/
theorem C4_last_write_wins (rs ts : List DeviceRecord) (d : DeviceRecord)
    (M : String) (hd : isAPRec d M = true)
    (hts : ∀ e ∈ ts, ¬ isAPRec e M = true) :
    (parse_kismet_log (rs ++ d :: ts)).aps.lookup M = some (apFieldsOf d) := by
  rw [parse_kismet_log_eq, processList_aps_lookup, lastAPInfo_append]
  have h1 : lastAPInfo (d :: ts) M = some (apFieldsOf d) := by
    rw [lastAPInfo, lastAPInfo_eq_none ts M hts, if_pos hd]
  rw [h1]

/-- Witness for C4: two records with the same MAC and different ssid — the
built entry reflects the ssid of the later record ("Cafe2"). -/
theorem C4_last_write_wins_witness :
    isAPRec (⟨some "AA:AA", some "Wi-Fi AP", some (JVal.str "Cafe2"),
        some (JVal.str "6"), none, []⟩ : DeviceRecord) "AA:AA" = true ∧
    (parse_kismet_log
      [⟨some "AA:AA", some "Wi-Fi AP", some (JVal.str "Cafe"),
          some (JVal.str "6"), none, []⟩,
       ⟨some "AA:AA", some "Wi-Fi AP", some (JVal.str "Cafe2"),
          some (JVal.str "6"), none, []⟩]).aps.lookup "AA:AA" =
      some ⟨JVal.str "Cafe2", JVal.str "6", "Unknown"⟩ :=
  ⟨by decide,
    C4_last_write_wins
      [⟨some "AA:AA", some "Wi-Fi AP", some (JVal.str "Cafe"),
          some (JVal.str "6"), none, []⟩] []
      ⟨some "AA:AA", some "Wi-Fi AP", some (JVal.str "Cafe2"),
          some (JVal.str "6"), none, []⟩
      "AA:AA" (by decide) (by intro e he; cases he)⟩

/-- C9: when the name, channel, or crypt key of an AP record is absent, the stored
entry carries the sentinel defaults "N/A" / "N/A" / "Unknown", so all three
attributes are always present. -/
theorem C9_sentinel_defaults (rs : List DeviceRecord) (d : DeviceRecord)
    (M : String) (hd : isAPRec d M = true) :
    ∃ ap, (parse_kismet_log (rs ++ [d])).aps.lookup M = some ap ∧
      (d.kismet_device_base_name = none → ap.ssid = JVal.str "N/A") ∧
      (d.kismet_common_channel = none → ap.channel = JVal.str "N/A") ∧
      (d.dot11_network_crypt_set = none → ap.crypt = "Unknown") := by
  refine ⟨apFieldsOf d, ?_, ?_, ?_, ?_⟩
  · rw [parse_kismet_log_eq, processList_aps_lookup, lastAPInfo_append]
    have h1 : lastAPInfo [d] M = some (apFieldsOf d) := by
      simp [lastAPInfo, hd]
    rw [h1]
  · intro h
    simp [apFieldsOf, h]
  · intro h
    simp [apFieldsOf, h]
  · intro h
    simp [apFieldsOf, h, JVal.asString]

/-- Witness for C9: an AP record with all three optional keys missing gets all
three sentinels. -/
theorem C9_sentinel_defaults_witness :
    isAPRec (⟨some "AA:AA", some "Wi-Fi AP", none, none, none, []⟩ :
      DeviceRecord) "AA:AA" = true ∧
    ∃ ap, (parse_kismet_log
        ([] ++ [(⟨some "AA:AA", some "Wi-Fi AP", none, none, none, []⟩ :
          DeviceRecord)])).aps.lookup "AA:AA" = some ap ∧
      ((⟨some "AA:AA", some "Wi-Fi AP", none, none, none, []⟩ :
        DeviceRecord).kismet_device_base_name = none → ap.ssid = JVal.str "N/A") ∧
      ((⟨some "AA:AA", some "Wi-Fi AP", none, none, none, []⟩ :
        DeviceRecord).kismet_common_channel = none → ap.channel = JVal.str "N/A") ∧
      ((⟨some "AA:AA", some "Wi-Fi AP", none, none, none, []⟩ :
        DeviceRecord).dot11_network_crypt_set = none → ap.crypt = "Unknown") :=
  ⟨by decide, C9_sentinel_defaults []
    ⟨some "AA:AA", some "Wi-Fi AP", none, none, none, []⟩ "AA:AA" (by decide)⟩

/-- C10: a record whose MAC or type key is present but empty is dropped just
like a record missing those keys: the inventory is unchanged. -/
theorem C10_empty_identifier_dropped (d : DeviceRecord) (inv : Inventory)
    (h : d.kismet_device_base_macaddr = none ∨
      d.kismet_device_base_macaddr = some "" ∨
      d.kismet_device_base_type = none ∨
      d.kismet_device_base_type = some "") :
    _process_device d inv = inv := by
  rcases d with ⟨mo, ty, nm, ch, cr, ps⟩
  cases mo with
  | none => rfl
  | some mac =>
    cases ty with
    | none => rfl
    | some t =>
      simp only [_process_device]
      rcases h with h | h | h | h
      · exact absurd h (by simp)
      · rw [Option.some.injEq] at h
        rw [if_pos (Or.inl h)]
      · exact absurd h (by simp)
      · rw [Option.some.injEq] at h
        rw [if_pos (Or.inr h)]

/-- Witness for C10: a record with an empty MAC string leaves a non-trivial
inventory untouched. -/
theorem C10_empty_identifier_dropped_witness :
    ((⟨some "", some "Wi-Fi AP", some (JVal.str "Cafe"), none, none, []⟩ :
        DeviceRecord).kismet_device_base_macaddr = none ∨
      (⟨some "", some "Wi-Fi AP", some (JVal.str "Cafe"), none, none, []⟩ :
        DeviceRecord).kismet_device_base_macaddr = some "" ∨
      (⟨some "", some "Wi-Fi AP", some (JVal.str "Cafe"), none, none, []⟩ :
        DeviceRecord).kismet_device_base_type = none ∨
      (⟨some "", some "Wi-Fi AP", some (JVal.str "Cafe"), none, none, []⟩ :
        DeviceRecord).kismet_device_base_type = some "") ∧
    _process_device
      ⟨some "", some "Wi-Fi AP", some (JVal.str "Cafe"), none, none, []⟩
      (parse_kismet_log
        [⟨some "AA:AA", some "Wi-Fi AP", some (JVal.str "Cafe"),
            some (JVal.str "6"), none, []⟩]) =
      parse_kismet_log
        [⟨some "AA:AA", some "Wi-Fi AP", some (JVal.str "Cafe"),
            some (JVal.str "6"), none, []⟩] :=
  ⟨by decide, C10_empty_identifier_dropped _ _ (by decide)⟩

theorem mem_sortKeys (s : Finset String) (a : String) :
    a ∈ sortKeys s ↔ a ∈ s :=
  Finset.mem_sort _

theorem sorted_sortKeys (s : Finset String) :
    List.Sorted (· ≤ ·) (sortKeys s) :=
  Finset.sort_sorted _ _

theorem map_fst_pairs {β : Type} (s : Finset String) (f : String → β) :
    ((sortKeys s).map fun m => (m, f m)).map Prod.fst = sortKeys s := by
  rw [List.map_map]
  have h : (Prod.fst ∘ fun m : String => (m, f m)) = id := rfl
  rw [h, List.map_id]

theorem mem_apPairs (aps : Finmap fun _ : String => APInfo) (s : Finset String)
    (hsub : ∀ a ∈ s, a ∈ aps) (mac : String) (v : JVal) :
    ((mac, v) ∈ (sortKeys s).map fun m => (m, apSsid aps m)) ↔
      mac ∈ s ∧ ∃ ap, aps.lookup mac = some ap ∧ v = ap.ssid := by
  rw [List.mem_map]
  constructor
  · rintro ⟨a, ha, heq⟩
    rw [Prod.mk.injEq] at heq
    rcases heq with ⟨h1, h2⟩
    subst h1
    have hmem : a ∈ s := (mem_sortKeys s a).mp ha
    rcases Finmap.mem_iff.mp (hsub a hmem) with ⟨ap, hap⟩
    refine ⟨hmem, ap, hap, ?_⟩
    rw [← h2]
    unfold apSsid
    rw [hap, Option.getD_some]
  · rintro ⟨hmem, ap, hap, rfl⟩
    refine ⟨mac, (mem_sortKeys s mac).mpr hmem, ?_⟩
    rw [Prod.mk.injEq]
    refine ⟨rfl, ?_⟩
    unfold apSsid
    rw [hap, Option.getD_some]

/-- C2: the membership diff lists exactly the key-set differences for APs and
clients, sorted lexicographically, each AP paired with the ssid stored in the
snapshot where it exists. -/
theorem C2_membership_diff (baseline comp : Inventory) :
    (∀ mac v, ((mac, v) ∈ (report_new_and_missing baseline comp).new_aps ↔
      mac ∈ comp.aps.keys \ baseline.aps.keys ∧
        ∃ ap, comp.aps.lookup mac = some ap ∧ v = ap.ssid)) ∧
    (∀ mac v, ((mac, v) ∈ (report_new_and_missing baseline comp).missing_aps ↔
      mac ∈ baseline.aps.keys \ comp.aps.keys ∧
        ∃ ap, baseline.aps.lookup mac = some ap ∧ v = ap.ssid)) ∧
    (∀ mac, (mac ∈ (report_new_and_missing baseline comp).new_clients ↔
      mac ∈ comp.clients.keys \ baseline.clients.keys)) ∧
    (∀ mac, (mac ∈ (report_new_and_missing baseline comp).missing_clients ↔
      mac ∈ baseline.clients.keys \ comp.clients.keys)) ∧
    List.Sorted (· ≤ ·)
      ((report_new_and_missing baseline comp).new_aps.map Prod.fst) ∧
    List.Sorted (· ≤ ·)
      ((report_new_and_missing baseline comp).missing_aps.map Prod.fst) ∧
    List.Sorted (· ≤ ·) (report_new_and_missing baseline comp).new_clients ∧
    List.Sorted (· ≤ ·) (report_new_and_missing baseline comp).missing_clients := by
  refine ⟨?_, ?_, ?_, ?_, ?_, ?_, ?_, ?_⟩
  · intro mac v
    exact mem_apPairs comp.aps (comp.aps.keys \ baseline.aps.keys)
      (fun a ha => Finmap.mem_keys.mp (Finset.mem_sdiff.mp ha).1) mac v
  · intro mac v
    exact mem_apPairs baseline.aps (baseline.aps.keys \ comp.aps.keys)
      (fun a ha => Finmap.mem_keys.mp (Finset.mem_sdiff.mp ha).1) mac v
  · intro mac
    exact mem_sortKeys _ mac
  · intro mac
    exact mem_sortKeys _ mac
  · show List.Sorted (· ≤ ·)
      (((sortKeys (comp.aps.keys \ baseline.aps.keys)).map
        fun m => (m, apSsid comp.aps m)).map Prod.fst)
    rw [map_fst_pairs]
    exact sorted_sortKeys _
  · show List.Sorted (· ≤ ·)
      (((sortKeys (baseline.aps.keys \ comp.aps.keys)).map
        fun m => (m, apSsid baseline.aps m)).map Prod.fst)
    rw [map_fst_pairs]
    exact sorted_sortKeys _
  · exact sorted_sortKeys _
  · exact sorted_sortKeys _

theorem mem_get_ap_changes (base_ap comp_ap : APInfo) (c : FieldChange) :
    c ∈ _get_ap_changes base_ap comp_ap ↔
      ((base_ap.ssid ≠ comp_ap.ssid ∧
        c = ⟨APField.ssid, base_ap.ssid, comp_ap.ssid⟩) ∨
       (base_ap.channel ≠ comp_ap.channel ∧
        c = ⟨APField.channel, base_ap.channel, comp_ap.channel⟩) ∨
       (base_ap.crypt ≠ comp_ap.crypt ∧
        c = ⟨APField.crypt, JVal.str base_ap.crypt, JVal.str comp_ap.crypt⟩)) := by
  unfold _get_ap_changes
  split_ifs with h1 h2 h3 <;> simp_all

theorem mem_report_ap_changes
    (baseline_aps comp_aps : Finmap fun _ : String => APInfo)
    (mac : String) (changes : List FieldChange) :
    (mac, changes) ∈ _report_ap_changes baseline_aps comp_aps ↔
      ∃ base_ap comp_ap, baseline_aps.lookup mac = some base_ap ∧
        comp_aps.lookup mac = some comp_ap ∧
        changes = _get_ap_changes base_ap comp_ap ∧ changes ≠ [] := by
  unfold _report_ap_changes
  rw [List.mem_filterMap]
  constructor
  · rintro ⟨a, ha, hf⟩
    have hmem := (mem_sortKeys _ a).mp ha
    rcases Finmap.mem_iff.mp
      (Finmap.mem_keys.mp (Finset.mem_inter.mp hmem).1) with ⟨base_ap, hb⟩
    rcases Finmap.mem_iff.mp
      (Finmap.mem_keys.mp (Finset.mem_inter.mp hmem).2) with ⟨comp_ap, hc⟩
    rw [hb, hc] at hf
    simp only [Option.getD_some] at hf
    by_cases hch : _get_ap_changes base_ap comp_ap = []
    · rw [if_pos hch] at hf
      cases hf
    · rw [if_neg hch] at hf
      rw [Option.some.injEq, Prod.mk.injEq] at hf
      rcases hf with ⟨h1, h2⟩
      subst h1
      subst h2
      exact ⟨base_ap, comp_ap, hb, hc, rfl, hch⟩
  · rintro ⟨base_ap, comp_ap, hb, hc, hch, hne⟩
    refine ⟨mac, ?_, ?_⟩
    · rw [mem_sortKeys]
      exact Finset.mem_inter.mpr
        ⟨Finmap.mem_keys.mpr (Finmap.mem_of_lookup_eq_some hb),
         Finmap.mem_keys.mpr (Finmap.mem_of_lookup_eq_some hc)⟩
    · rw [hb, hc]
      simp only [Option.getD_some]
      rw [← hch, if_neg hne]

theorem nodup_get_ap_changes (base_ap comp_ap : APInfo) :
    (_get_ap_changes base_ap comp_ap).Nodup := by
  unfold _get_ap_changes
  split_ifs <;> simp

/-- C3: over the common AP keys, a MAC is reported exactly when at least one
of the three stored attributes changed, with one change record per differing
attribute carrying the old and new value; keys present in only one snapshot
never appear. -/
theorem C3_field_change_diff
    (baseline_aps comp_aps : Finmap fun _ : String => APInfo) :
    (∀ mac changes,
      ((mac, changes) ∈ _report_ap_changes baseline_aps comp_aps ↔
        ∃ base_ap comp_ap, baseline_aps.lookup mac = some base_ap ∧
          comp_aps.lookup mac = some comp_ap ∧
          changes = _get_ap_changes base_ap comp_ap ∧ changes ≠ [])) ∧
    (∀ base_ap comp_ap c,
      (c ∈ _get_ap_changes base_ap comp_ap ↔
        ((base_ap.ssid ≠ comp_ap.ssid ∧
          c = ⟨APField.ssid, base_ap.ssid, comp_ap.ssid⟩) ∨
         (base_ap.channel ≠ comp_ap.channel ∧
          c = ⟨APField.channel, base_ap.channel, comp_ap.channel⟩) ∨
         (base_ap.crypt ≠ comp_ap.crypt ∧
          c = ⟨APField.crypt, JVal.str base_ap.crypt, JVal.str comp_ap.crypt⟩)))) ∧
    (∀ base_ap comp_ap, (_get_ap_changes base_ap comp_ap).Nodup) :=
  ⟨fun mac changes => mem_report_ap_changes baseline_aps comp_aps mac changes,
   fun base_ap comp_ap c => mem_get_ap_changes base_ap comp_ap c,
   fun base_ap comp_ap => nodup_get_ap_changes base_ap comp_ap⟩

theorem mem_report_client_changes
    (baseline_clients comp_clients : Finmap fun _ : String => Finset String)
    (mac : String) (added removed : Finset String) :
    (mac, added, removed) ∈ _report_client_changes baseline_clients comp_clients ↔
      ∃ base_client comp_client,
        baseline_clients.lookup mac = some base_client ∧
        comp_clients.lookup mac = some comp_client ∧
        added = comp_client \ base_client ∧ removed = base_client \ comp_client ∧
        ¬(added = ∅ ∧ removed = ∅) := by
  unfold _report_client_changes
  rw [List.mem_filterMap]
  constructor
  · rintro ⟨a, ha, hf⟩
    have hmem := (mem_sortKeys _ a).mp ha
    rcases Finmap.mem_iff.mp
      (Finmap.mem_keys.mp (Finset.mem_inter.mp hmem).1) with ⟨base_client, hb⟩
    rcases Finmap.mem_iff.mp
      (Finmap.mem_keys.mp (Finset.mem_inter.mp hmem).2) with ⟨comp_client, hc⟩
    rw [hb, hc] at hf
    simp only [Option.getD_some, _get_client_probe_changes] at hf
    by_cases hch : comp_client \ base_client = ∅ ∧ base_client \ comp_client = ∅
    · rw [if_pos hch] at hf
      cases hf
    · rw [if_neg hch] at hf
      rw [Option.some.injEq, Prod.mk.injEq, Prod.mk.injEq] at hf
      rcases hf with ⟨h1, h2, h3⟩
      subst h1
      subst h2
      subst h3
      exact ⟨base_client, comp_client, hb, hc, rfl, rfl, hch⟩
  · rintro ⟨base_client, comp_client, hb, hc, h1, h2, hne⟩
    subst h1
    subst h2
    refine ⟨mac, ?_, ?_⟩
    · rw [mem_sortKeys]
      exact Finset.mem_inter.mpr
        ⟨Finmap.mem_keys.mpr (Finmap.mem_of_lookup_eq_some hb),
         Finmap.mem_keys.mpr (Finmap.mem_of_lookup_eq_some hc)⟩
    · rw [hb, hc]
      simp only [Option.getD_some, _get_client_probe_changes]
      rw [if_neg hne]

/-- C5: over the common client keys, a MAC is reported exactly when the two
probe-set differences (added = comparison − baseline, removed = baseline −
comparison) are not both empty, and the reported sets are those differences. -/
theorem C5_client_probe_diff
    (baseline_clients comp_clients : Finmap fun _ : String => Finset String) :
    ∀ mac added removed,
      ((mac, added, removed) ∈
          _report_client_changes baseline_clients comp_clients ↔
        ∃ base_client comp_client,
          baseline_clients.lookup mac = some base_client ∧
          comp_clients.lookup mac = some comp_client ∧
          added = comp_client \ base_client ∧
          removed = base_client \ comp_client ∧
          ¬(added = ∅ ∧ removed = ∅)) :=
  fun mac added removed =>
    mem_report_client_changes baseline_clients comp_clients mac added removed

theorem mem_namePairs (idx : Finmap fun _ : String => Finset String)
    (s : Finset String) (n : String) (ms : List String) :
    ((n, ms) ∈ (sortKeys s).map fun x => (x, sortKeys (lookupSet idx x))) ↔
      n ∈ s ∧ ms = sortKeys (lookupSet idx n) := by
  rw [List.mem_map]
  constructor
  · rintro ⟨a, ha, heq⟩
    rw [Prod.mk.injEq] at heq
    rcases heq with ⟨h1, h2⟩
    subst h1
    exact ⟨(mem_sortKeys s a).mp ha, h2.symm⟩
  · rintro ⟨hn, rfl⟩
    exact ⟨n, (mem_sortKeys s n).mpr hn, rfl⟩

/-- C6: the probed-name diff lists exactly the key-set differences of the two
indexes; each newly probed name is attributed to the sorted list of all
comparison-side clients recorded for it. -/
theorem C6_probed_name_diff
    (baseline_probes comp_probes : Finmap fun _ : String => Finset String) :
    (∀ n ms,
      ((n, ms) ∈
          (report_probed_ssid_analysis baseline_probes comp_probes).newly_probed ↔
        n ∈ comp_probes.keys \ baseline_probes.keys ∧
          ms = sortKeys (lookupSet comp_probes n))) ∧
    (∀ n M, (M ∈ sortKeys (lookupSet comp_probes n) ↔
      M ∈ lookupSet comp_probes n)) ∧
    (∀ n, List.Sorted (· ≤ ·) (sortKeys (lookupSet comp_probes n))) ∧
    (∀ n,
      (n ∈ (report_probed_ssid_analysis baseline_probes comp_probes).no_longer_probed ↔
        n ∈ baseline_probes.keys \ comp_probes.keys)) := by
  refine ⟨?_, ?_, ?_, ?_⟩
  · intro n ms
    exact mem_namePairs comp_probes (comp_probes.keys \ baseline_probes.keys) n ms
  · intro n M
    exact mem_sortKeys _ M
  · intro n
    exact sorted_sortKeys _
  · intro n
    exact mem_sortKeys _ n

theorem mem_map_fst_pairs (s : Finset String) (f : String → JVal)
    (mac : String) :
    (mac ∈ ((sortKeys s).map fun m => (m, f m)).map Prod.fst) ↔ mac ∈ s := by
  rw [map_fst_pairs, mem_sortKeys]

/-- C7: for each entity class the two halves of the membership diff are
disjoint, and swapping baseline and comparison swaps new and missing. -/
theorem C7_membership_symmetry (A B : Inventory) :
    (report_new_and_missing A B).new_aps =
      (report_new_and_missing B A).missing_aps ∧
    (report_new_and_missing A B).missing_aps =
      (report_new_and_missing B A).new_aps ∧
    (report_new_and_missing A B).new_clients =
      (report_new_and_missing B A).missing_clients ∧
    (report_new_and_missing A B).missing_clients =
      (report_new_and_missing B A).new_clients ∧
    (∀ mac, ¬(mac ∈ (report_new_and_missing A B).new_aps.map Prod.fst ∧
      mac ∈ (report_new_and_missing A B).missing_aps.map Prod.fst)) ∧
    (∀ mac, ¬(mac ∈ (report_new_and_missing A B).new_clients ∧
      mac ∈ (report_new_and_missing A B).missing_clients)) := by
  refine ⟨rfl, rfl, rfl, rfl, ?_, ?_⟩
  · rintro mac ⟨h1, h2⟩
    have h1' : mac ∈ B.aps.keys \ A.aps.keys := by
      have := (mem_map_fst_pairs (B.aps.keys \ A.aps.keys)
        (fun m => apSsid B.aps m) mac).mp h1
      exact this
    have h2' : mac ∈ A.aps.keys \ B.aps.keys := by
      have := (mem_map_fst_pairs (A.aps.keys \ B.aps.keys)
        (fun m => apSsid A.aps m) mac).mp h2
      exact this
    exact (Finset.mem_sdiff.mp h1').2 (Finset.mem_sdiff.mp h2').1
  · rintro mac ⟨h1, h2⟩
    have h1' : mac ∈ B.clients.keys \ A.clients.keys := (mem_sortKeys _ mac).mp h1
    have h2' : mac ∈ A.clients.keys \ B.clients.keys := (mem_sortKeys _ mac).mp h2
    exact (Finset.mem_sdiff.mp h1').2 (Finset.mem_sdiff.mp h2').1

/-- C8: diffing an inventory against itself yields empty results in every
section — no new or missing entities, no AP field changes, no client probe
changes, and no probed-name changes. -/
theorem C8_reflexivity (inv : Inventory) :
    report_new_and_missing inv inv = ⟨[], [], [], []⟩ ∧
    _report_ap_changes inv.aps inv.aps = [] ∧
    _report_client_changes inv.clients inv.clients = [] ∧
    report_probed_ssid_analysis inv.probed_ssid_map inv.probed_ssid_map =
      ⟨[], []⟩ := by
  refine ⟨?_, ?_, ?_, ?_⟩
  · unfold report_new_and_missing
    simp [sortKeys, Finset.sdiff_self, Finset.sort_empty]
  · unfold _report_ap_changes
    rw [List.filterMap_eq_nil_iff]
    intro a ha
    rcases Finmap.mem_iff.mp (Finmap.mem_keys.mp
      (Finset.mem_inter.mp ((mem_sortKeys _ a).mp ha)).1) with ⟨ap, hap⟩
    rw [hap]
    simp [_get_ap_changes]
  · unfold _report_client_changes
    rw [List.filterMap_eq_nil_iff]
    intro a ha
    rcases Finmap.mem_iff.mp (Finmap.mem_keys.mp
      (Finset.mem_inter.mp ((mem_sortKeys _ a).mp ha)).1) with ⟨cl, hcl⟩
    rw [hcl]
    simp [_get_client_probe_changes, Finset.sdiff_self]
  · unfold report_probed_ssid_analysis
    simp [sortKeys, Finset.sdiff_self, Finset.sort_empty]
